import Mathlib

/-!
Verification development for the Members API core (members-api package)
and the offers OfferDuration value object.

The JavaScript source is shallowly embedded: the module-level functions of
MembersAPI.js become pure Lean functions over an explicit repository state,
asynchronous collaborators that live outside the embedded module (token
signing, mail transport, the Stripe webhook service internals, geolocation
lookup) are passed in as parameters or modelled from the specification, and
thrown JavaScript errors become `Except` errors.

Definitions come first, theorems afterwards.
-/

namespace Members

/-- JavaScript string truthiness for an optional string property: absent
(undefined) and the empty string are falsy, every other string is truthy. -/
def jsTruthyStr : Option String → Bool
  | none => false
  | some s => s != ""

/-- A member record as stored by the member repository.  `geolocation` is the
optional serialized geolocation blob. -/
structure Member where
  id : Nat
  email : String
  name : String
  labels : List String
  geolocation : Option String
deriving Repr, DecidableEq

/-- The shared repository state threaded through the embedded operations.
`members` is the member table, `loginEvents` the append-only log of
`MemberLoginEvent.add` calls (member ids, in insertion order), `nextId` the
id the next created member receives, and `reads` the trace of lookups by
email performed against the member repository / BREAD service. -/
structure MembersState where
  members : List Member
  loginEvents : List Nat
  nextId : Nat
  reads : List String
deriving Repr, DecidableEq

/-- Errors surfaced by the embedded operations.  `incorrectUsage` models
`errors.IncorrectUsageError`, `notFound` models `errors.NotFoundError`,
`typeError` models the built-in TypeError raised by calling a method on
`null`/`undefined`, and `conflict` models the email-uniqueness Conflict
error of the member repository. -/
inductive ApiError
  | incorrectUsage
  | notFound
  | typeError
  | conflict
deriving Repr, DecidableEq

/-- Embedding of `users.get({email})` (the member repository lookup by
email).  Pure read; it is recorded in the `reads` trace. -/
def usersGet (st : MembersState) (email : String) : Option Member × MembersState :=
  (st.members.find? (fun m => m.email == email),
   { st with reads := st.reads ++ [email] })

/-- Embedding of `getMemberIdentityData(email)`, i.e.
`memberBREADService.read({email})`: the identity projection of the member
with that email, or none.  Pure read; recorded in the `reads` trace. -/
def getMemberIdentityData (st : MembersState) (email : String) : Option Member × MembersState :=
  (st.members.find? (fun m => m.email == email),
   { st with reads := st.reads ++ [email] })

/-- Modelled from the spec: `MemberRepository.create` (section 4.4), whose
source is not part of the embedded excerpt.  `create(attrs) -> Member` fails
with `Conflict` if the email is already present; otherwise it stores a new
member built from name, email and labels under a fresh id. -/
def usersCreate (st : MembersState) (name email : String) (labels : List String) :
    Except ApiError (Member × MembersState) :=
  if st.members.any (fun x => x.email == email) then
    .error .conflict
  else
    let m : Member := ⟨st.nextId, email, name, labels, none⟩
    .ok (m, { st with members := st.members ++ [m], nextId := st.nextId + 1 })

/-- Modelled from the spec: `MemberRepository.update` (section 4.4), whose
source is not part of the embedded excerpt.  Partial update by id; updating
the email re-validates uniqueness and fails with `Conflict` if the new email
is already taken by a different member (section 4.3 step 3). -/
def usersUpdate (st : MembersState) (data : Member) (id : Nat) :
    Except ApiError MembersState :=
  if st.members.any (fun x => x.email == data.email && !(x.id == id)) then
    .error .conflict
  else
    .ok { st with members := st.members.map (fun x => if x.id == id then data else x) }

/-- The arguments handed to `magicLinkService.sendMagicLink` by
`sendEmailWithMagicLink`: the recipient email, the effective email type
(the intent encoded in the magic link), the request source, and the token
data.  Token data is an association list with first-match lookup semantics,
so `Object.assign(\x7bemail\x7d, tokenData)` — where `tokenData` keys win —
is embedded as `tokenData ++ [("email", email)]`. -/
structure SentMagicLink where
  email : String
  type : String
  requestSrc : String
  tokenData : List (String × String)
deriving Repr, DecidableEq

/-- Embedding of `sendEmailWithMagicLink({email, requestedType, tokenData,
options, requestSrc})` from MembersAPI.js.  When `options.forceEmailType`
is not set, the effective type is computed from member existence; otherwise
the requested type is used unchanged.  The magic-link service itself is an
external collaborator, so the function returns the message it would hand to
`magicLinkService.sendMagicLink`. -/
def sendEmailWithMagicLink (st : MembersState) (email requestedType : String)
    (tokenData : List (String × String)) (forceEmailType : Bool) (requestSrc : String) :
    SentMagicLink × MembersState :=
  if !forceEmailType then
    match usersGet st email with
    | (member, st1) =>
      let t :=
        if member.isSome then "signin"
        else if !(requestedType == "subscribe") then "signup"
        else requestedType
      (⟨email, t, requestSrc, tokenData ++ [("email", email)]⟩, st1)
  else
    (⟨email, requestedType, requestSrc, tokenData ++ [("email", email)]⟩, st)

/-- A Stripe customer subscription row, as queried by
`StripeCustomerSubscription.findOne({status})`. -/
structure StripeCustomerSubscription where
  status : String
deriving Repr, DecidableEq

/-- Embedding of `StripeCustomerSubscription.findOne({status})`: the first
stored subscription whose status matches. -/
def findOne (subs : List StripeCustomerSubscription) (status : String) :
    Option StripeCustomerSubscription :=
  subs.find? (fun s => s.status == status)

/-- Embedding of `hasActiveStripeSubscriptions()` from MembersAPI.js: four
sequential `findOne` existence checks for the statuses active, trialing,
unpaid and past_due. -/
def hasActiveStripeSubscriptions (subs : List StripeCustomerSubscription) : Bool :=
  if (findOne subs "active").isSome then true
  else if (findOne subs "trialing").isSome then true
  else if (findOne subs "unpaid").isSome then true
  else if (findOne subs "past_due").isSome then true
  else false

/-- The decoded magic-link token payload, as destructured by
`getMemberDataFromMagicLinkToken` from
`magicLinkService.getDataFromToken(token)`.  Optional JavaScript properties
are embedded as `Option`; `labels` defaults to the empty list and `name` to
the empty string at the destructuring site. -/
structure TokenPayload where
  email : Option String
  labels : Option (List String)
  name : Option String
  oldEmail : Option String
deriving Repr, DecidableEq

/-- Embedding of `getMemberDataFromMagicLinkToken(token)` from
MembersAPI.js, given the already-decoded token payload (the magic-link
service that verifies and decodes the signed token is an external
collaborator).  Returns the resolved member identity (or none when the
payload has no truthy email) together with the updated state. -/
def getMemberDataFromMagicLinkToken (st : MembersState) (p : TokenPayload) :
    Except ApiError (Option Member) × MembersState :=
  let labels := p.labels.getD []
  let name := p.name.getD ""
  if !(jsTruthyStr p.email) then (.ok none, st) else
  let email := p.email.getD ""
  let lookup :=
    if jsTruthyStr p.oldEmail then getMemberIdentityData st (p.oldEmail.getD "")
    else getMemberIdentityData st email
  match lookup with
  | (some member, st1) =>
    let st2 := { st1 with loginEvents := st1.loginEvents ++ [member.id] }
    if jsTruthyStr p.oldEmail then
      match usersUpdate st2 { member with email := email } member.id with
      | .error e => (.error e, st2)
      | .ok st3 =>
        let r := getMemberIdentityData st3 email
        (.ok r.1, r.2)
    else (.ok (some member), st2)
  | (none, st1) =>
    match usersCreate st1 name email labels with
    | .error e => (.error e, st1)
    | .ok (newMember, st2) =>
      let st3 := { st2 with loginEvents := st2.loginEvents ++ [newMember.id] }
      let r := getMemberIdentityData st3 email
      (.ok r.1, r.2)

/-- Modelled from the spec: the outcome of
`geolocationService.getGeolocationFromIP(ip)`, whose source is not part of
the embedded excerpt.  Per section 6 the geolocation collaborator returns a
serialized location or no value, with bounded latency; per section 4.4 a
lookup failure or timeout degrades to the no-value outcome instead of
raising. -/
inductive GeoLookupResult
  | location (serialized : String)
  | noValue
deriving Repr, DecidableEq

/-- JSON.stringify applied to the geolocation lookup outcome: stringifying
the undefined no-value outcome yields undefined (none); stringifying a
defined value yields its serialization. -/
def jsonStringifyGeo : GeoLookupResult → Option String
  | .location s => some s
  | .noValue => none

/-- Embedding of `setMemberGeolocationFromIp(email, ip)` from MembersAPI.js,
with the geolocation lookup outcome passed as a parameter.  Note that the
source calls `.toJSON()` on the result of `users.get({email})` before its
null check, so a missing member raises a TypeError and the `NotFoundError`
branch that follows is unreachable. -/
def setMemberGeolocationFromIp (st : MembersState) (email ip : String)
    (geoResult : GeoLookupResult) : Except ApiError (Option Member) × MembersState :=
  if email == "" || ip == "" then (.error .incorrectUsage, st) else
  match usersGet st email with
  | (none, st1) => (.error .typeError, st1)
  | (some member, st1) =>
    match jsonStringifyGeo geoResult with
    | some g =>
      if !(g == "") then
        match usersUpdate st1 { member with geolocation := some g } member.id with
        | .error e => (.error e, st1)
        | .ok st2 =>
          let r := getMemberIdentityData st2 email
          (.ok r.1, r.2)
      else
        let r := getMemberIdentityData st1 email
        (.ok r.1, r.2)
    | none =>
      let r := getMemberIdentityData st1 email
      (.ok r.1, r.2)

/-- A parsed Stripe webhook event, the result of a successful
`stripeWebhookService.parseWebhook`. -/
structure StripeEvent where
  type : String
deriving Repr, DecidableEq

/-- A JavaScript error thrown by `stripeWebhookService.handleWebhook`; it
may or may not carry a `statusCode` property. -/
structure HandlerError where
  statusCode : Option Nat
deriving Repr, DecidableEq

/-- The outcome of `stripeWebhookService.handleWebhook` over an abstract
processing state: either success with the new state, or a thrown error
together with whatever state the failed processing left behind. -/
inductive HandlerResult (σ : Type) where
  | success (st : σ)
  | failure (err : HandlerError) (st : σ)

/-- The observable outcome of the webhook middleware: the HTTP status
written to the response, whether `handleWebhook` was invoked, and the
resulting processing state. -/
structure WebhookOutcome (σ : Type) where
  status : Nat
  handledWebhook : Bool
  state : σ

/-- The JavaScript expression `err.statusCode || 500`: the status code if
present and truthy (nonzero), otherwise 500. -/
def jsOrStatus : Option Nat → Nat
  | some c => if c == 0 then 500 else c
  | none => 500

/-- Embedding of the `middleware.handleStripeWebhook` request handler from
MembersAPI.js.  The Stripe webhook service is an external collaborator, so
the outcome of `parseWebhook` (signature verification and payload parsing)
and the behaviour of `handleWebhook` are passed as parameters; the member,
subscription and event state it may mutate is the abstract state `σ`. -/
def handleStripeWebhook {σ : Type} (st : σ) (configured hasBody hasSignature : Bool)
    (parseResult : Except Unit StripeEvent)
    (handle : σ → StripeEvent → HandlerResult σ) : WebhookOutcome σ :=
  if !configured then ⟨400, false, st⟩
  else if !hasBody || !hasSignature then ⟨400, false, st⟩
  else
    match parseResult with
    | .error _ => ⟨401, false, st⟩
    | .ok event =>
      match handle st event with
      | .success st1 => ⟨200, true, st1⟩
      | .failure err st1 => ⟨jsOrStatus err.statusCode, true, st1⟩

end Members

namespace Offers

/-- A JavaScript runtime value, embedded far enough to evaluate the dynamic
type tests of OfferDuration.create: strings, finite numbers (as rationals,
which represent every finite double exactly), the non-finite numbers NaN
and the two infinities, booleans, null and undefined. -/
inductive JSValue where
  | vStr (s : String)
  | vNum (q : Rat)
  | vNaN
  | vInf
  | vNegInf
  | vBool (b : Bool)
  | vNull
  | vUndefined
deriving Repr, DecidableEq

/-- JavaScript truthiness of a value. -/
def jsTruthy : JSValue → Bool
  | .vStr s => s != ""
  | .vNum q => q != 0
  | .vNaN => false
  | .vInf => true
  | .vNegInf => true
  | .vBool b => b
  | .vNull => false
  | .vUndefined => false

/-- The result of the JavaScript `typeof` operator. -/
def typeofString : JSValue → String
  | .vStr _ => "string"
  | .vNum _ => "number"
  | .vNaN => "number"
  | .vInf => "number"
  | .vNegInf => "number"
  | .vBool _ => "boolean"
  | .vNull => "object"
  | .vUndefined => "undefined"

/-- The JavaScript `Number.isInteger` predicate: true exactly on finite
numbers with integral value, false on NaN, the infinities and every
non-number. -/
def numberIsInteger : JSValue → Bool
  | .vNum q => q.den == 1
  | _ => false

/-- The OfferDuration value object: the stored props are `type` and, for
repeating durations, `months`. -/
structure OfferDuration where
  type : JSValue
  months : Option JSValue
deriving Repr, DecidableEq

/-- The InvalidOfferDuration error raised by OfferDuration.create. -/
structure InvalidOfferDuration where
  message : String
deriving Repr, DecidableEq

/-- Embedding of `OfferDuration.create(type, months)` from
packages/offers/lib/domain/models/OfferDuration.js. -/
def OfferDuration.create (type months : JSValue) : Except InvalidOfferDuration OfferDuration :=
  if !(jsTruthy type) || !(typeofString type == "string") then
    .error ⟨"Offer `duration` must be a string."⟩
  else if !(type == .vStr "once") && !(type == .vStr "repeating")
      && !(type == .vStr "forever") then
    .error ⟨"Offer `duration` must be one of \"once\", \"repeating\" or \"forever\"."⟩
  else if !(type == .vStr "repeating") then
    .ok ⟨type, none⟩
  else if !(typeofString months == "number") then
    .error ⟨"Offer `duration` must have include `duration_in_months` when \"repeating\"."⟩
  else if !(numberIsInteger months) then
    .error ⟨"Offer `duration_in_months` must be an integer."⟩
  else
    .ok ⟨type, some months⟩

/-- Whether an `Except` result is the error case. -/
def exceptIsError {ε α : Type} : Except ε α → Bool
  | .error _ => true
  | .ok _ => false

/-- Whether a JavaScript value is one of the three valid duration type
strings. -/
def isDurationType (t : JSValue) : Bool :=
  t == .vStr "once" || t == .vStr "repeating" || t == .vStr "forever"

end Offers

namespace Members

/-- C1: for every call to sendEmailWithMagicLink without the force option
set, the effective intent encoded in the magic link is `signin` if a member
with that email exists, otherwise the requested intent if it was
`subscribe`, otherwise `signup`; when the force option is set, the requested
intent is used unchanged regardless of member existence. -/
theorem sendEmailWithMagicLink_effective_intent
    (st : MembersState) (email requestedType requestSrc : String)
    (tokenData : List (String × String)) :
    ((sendEmailWithMagicLink st email requestedType tokenData true requestSrc).1.type
        = requestedType)
    ∧ ((sendEmailWithMagicLink st email requestedType tokenData false requestSrc).1.type
        = if (st.members.find? (fun m => m.email == email)).isSome then "signin"
          else if requestedType = "subscribe" then "subscribe"
          else "signup") := by
  constructor
  · rfl
  · simp only [sendEmailWithMagicLink, usersGet, Bool.not_false, if_true]
    by_cases h : (st.members.find? (fun m => m.email == email)).isSome
    · simp [h]
    · by_cases hs : requestedType = "subscribe" <;> simp [h, hs]

/-- The sequential findOne existence checks collapse to a disjunction of
the four status checks. -/
theorem hasActiveStripeSubscriptions_eq_or (subs : List StripeCustomerSubscription) :
    hasActiveStripeSubscriptions subs =
      ((findOne subs "active").isSome || (findOne subs "trialing").isSome
        || (findOne subs "unpaid").isSome || (findOne subs "past_due").isSome) := by
  unfold hasActiveStripeSubscriptions
  cases h1 : (findOne subs "active").isSome <;>
    cases h2 : (findOne subs "trialing").isSome <;>
      cases h3 : (findOne subs "unpaid").isSome <;>
        cases h4 : (findOne subs "past_due").isSome <;>
          simp [h1, h2, h3, h4]

/-- C4: hasActiveStripeSubscriptions returns true if and only if at least
one subscription exists whose status is in the set of active, trialing,
past_due and unpaid; if every subscription has a status outside that set,
it returns false. -/
theorem hasActiveStripeSubscriptions_iff (subs : List StripeCustomerSubscription) :
    hasActiveStripeSubscriptions subs = true ↔
      ∃ s ∈ subs, s.status = "active" ∨ s.status = "trialing"
        ∨ s.status = "past_due" ∨ s.status = "unpaid" := by
  rw [hasActiveStripeSubscriptions_eq_or]
  simp only [findOne, Bool.or_eq_true, List.find?_isSome, beq_iff_eq]
  constructor
  · rintro (((⟨s, hs, h⟩ | ⟨s, hs, h⟩) | ⟨s, hs, h⟩) | ⟨s, hs, h⟩)
    · exact ⟨s, hs, Or.inl h⟩
    · exact ⟨s, hs, Or.inr (Or.inl h)⟩
    · exact ⟨s, hs, Or.inr (Or.inr (Or.inr h))⟩
    · exact ⟨s, hs, Or.inr (Or.inr (Or.inl h))⟩
  · rintro ⟨s, hs, h | h | h | h⟩
    · exact Or.inl (Or.inl (Or.inl ⟨s, hs, h⟩))
    · exact Or.inl (Or.inl (Or.inr ⟨s, hs, h⟩))
    · exact Or.inr ⟨s, hs, h⟩
    · exact Or.inl (Or.inr ⟨s, hs, h⟩)

/-- C5: for every token whose decoded payload lacks an email claim,
getMemberDataFromMagicLinkToken returns none (no identity) rather than
raising an error, and the state is untouched: no member lookup is recorded,
no member is created or updated, and no login event is appended. -/
theorem getMemberDataFromMagicLinkToken_no_email (st : MembersState) (p : TokenPayload)
    (h : p.email = none) :
    getMemberDataFromMagicLinkToken st p = (.ok none, st) := by
  simp [getMemberDataFromMagicLinkToken, h, jsTruthyStr]

/-- Witness for C5 at a concrete empty payload and a concrete state. -/
theorem getMemberDataFromMagicLinkToken_no_email_witness :
    TokenPayload.email ⟨none, none, none, none⟩ = none ∧
    getMemberDataFromMagicLinkToken ⟨[⟨1, "a", "n", [], none⟩], [], 2, []⟩
        ⟨none, none, none, none⟩
      = (Except.ok none, ⟨[⟨1, "a", "n", [], none⟩], [], 2, []⟩) :=
  ⟨rfl, getMemberDataFromMagicLinkToken_no_email ⟨[⟨1, "a", "n", [], none⟩], [], 2, []⟩
    ⟨none, none, none, none⟩ rfl⟩

/-- C7: for every call to setMemberGeolocationFromIp on an existing member,
a geolocation lookup failure (a lookup that yields no value) does not fail
the overall operation: no error is raised, the member table — and with it
the member's geolocation field — is left unchanged, and the member's
identity data is still returned. -/
theorem setMemberGeolocationFromIp_lookup_failure
    (st : MembersState) (email ip : String) (m : Member)
    (he : email ≠ "") (hip : ip ≠ "")
    (hfind : st.members.find? (fun x => x.email == email) = some m) :
    setMemberGeolocationFromIp st email ip GeoLookupResult.noValue
      = (Except.ok (some m), { st with reads := st.reads ++ [email, email] }) := by
  simp only [setMemberGeolocationFromIp, usersGet, getMemberIdentityData, jsonStringifyGeo,
    hfind, beq_iff_eq, he, hip, Bool.or_eq_true, or_self, if_false]
  simp [he, hip, List.append_assoc]

/-- Witness for C7 at a concrete member, email, and ip. -/
theorem setMemberGeolocationFromIp_lookup_failure_witness :
    ("a@b.c" : String) ≠ "" ∧ ("8.8.8.8" : String) ≠ "" ∧
    ([⟨1, "a@b.c", "n", [], none⟩] : List Member).find? (fun x => x.email == "a@b.c")
      = some ⟨1, "a@b.c", "n", [], none⟩ ∧
    setMemberGeolocationFromIp ⟨[⟨1, "a@b.c", "n", [], none⟩], [], 2, []⟩ "a@b.c" "8.8.8.8"
        GeoLookupResult.noValue
      = (Except.ok (some ⟨1, "a@b.c", "n", [], none⟩),
         ⟨[⟨1, "a@b.c", "n", [], none⟩], [], 2, ["a@b.c", "a@b.c"]⟩) :=
  ⟨by decide, by decide, by decide,
    setMemberGeolocationFromIp_lookup_failure ⟨[⟨1, "a@b.c", "n", [], none⟩], [], 2, []⟩
      "a@b.c" "8.8.8.8" ⟨1, "a@b.c", "n", [], none⟩ (by decide) (by decide) (by decide)⟩

/-- C8: evaluating setMemberGeolocationFromIp at a concrete non-empty email
and ip for which no member exists shows the call failing with a TypeError
(the `.toJSON()` call on the null lookup result), not with the NotFoundError
the unreachable guard would raise; the member table is unchanged. -/
theorem setMemberGeolocationFromIp_missing_member_typeError :
    setMemberGeolocationFromIp ⟨[], [], 1, []⟩ "missing@example.com" "8.8.8.8"
        GeoLookupResult.noValue
      = (Except.error ApiError.typeError, ⟨[], [], 1, ["missing@example.com"]⟩)
    ∧ ApiError.typeError ≠ ApiError.notFound := by
  constructor
  · rfl
  · decide

/-- C3: for every inbound webhook request whose signature verification
(parseWebhook) fails, the handler responds with HTTP 401 and performs no
processing of the payload: handleWebhook is never invoked and the member,
subscription and event state is unchanged. -/
theorem handleStripeWebhook_bad_signature {σ : Type} (st : σ)
    (handle : σ → StripeEvent → HandlerResult σ)
    (parseResult : Except Unit StripeEvent) (h : parseResult = .error ()) :
    (handleStripeWebhook st true true true parseResult handle).status = 401
    ∧ (handleStripeWebhook st true true true parseResult handle).handledWebhook = false
    ∧ (handleStripeWebhook st true true true parseResult handle).state = st := by
  subst h
  exact ⟨rfl, rfl, rfl⟩

/-- Witness for C3 over a concrete Nat processing state. -/
theorem handleStripeWebhook_bad_signature_witness :
    ((Except.error () : Except Unit StripeEvent) = Except.error ())
    ∧ (handleStripeWebhook (0 : Nat) true true true (Except.error ())
        (fun s _ => HandlerResult.success s)).status = 401
    ∧ (handleStripeWebhook (0 : Nat) true true true (Except.error ())
        (fun s _ => HandlerResult.success s)).handledWebhook = false
    ∧ (handleStripeWebhook (0 : Nat) true true true (Except.error ())
        (fun s _ => HandlerResult.success s)).state = 0 :=
  ⟨rfl, handleStripeWebhook_bad_signature 0 (fun s _ => HandlerResult.success s)
    (Except.error ()) rfl⟩

/-- C9 counterexample: a verified webhook whose processing fails with an
error carrying statusCode 404 is answered with status 404, which is not a
5xx-class status, so the claim that processing failures are always answered
with a 5xx-class status is false. -/
theorem handleStripeWebhook_processing_failure_not_5xx :
    (handleStripeWebhook (0 : Nat) true true true (Except.ok ⟨"invoice.updated"⟩)
        (fun s _ => HandlerResult.failure ⟨some 404⟩ s)).status = 404
    ∧ ¬(500 ≤ (handleStripeWebhook (0 : Nat) true true true (Except.ok ⟨"invoice.updated"⟩)
        (fun s _ => HandlerResult.failure ⟨some 404⟩ s)).status) :=
  ⟨rfl, by decide⟩

/-- C9 amended: for every inbound webhook request whose signature verifies
but whose processing (handleWebhook) fails, the handler responds with the
thrown error's own statusCode when it carries a truthy one and with 500
otherwise; in particular a failure whose error carries no statusCode is
answered with the 5xx-class retry signal 500. -/
theorem handleStripeWebhook_processing_failure_status {σ : Type} (st st1 : σ)
    (handle : σ → StripeEvent → HandlerResult σ) (event : StripeEvent)
    (err : HandlerError) (h : handle st event = .failure err st1) :
    (handleStripeWebhook st true true true (Except.ok event) handle).status
        = jsOrStatus err.statusCode
    ∧ (err.statusCode = none →
        (handleStripeWebhook st true true true (Except.ok event) handle).status = 500
        ∧ 500 ≤ (handleStripeWebhook st true true true (Except.ok event) handle).status) := by
  constructor
  · simp [handleStripeWebhook, h]
  · intro hn
    simp [handleStripeWebhook, h, jsOrStatus, hn]

/-- Witness for the amended C9 at a concrete failing handler without a
statusCode. -/
theorem handleStripeWebhook_processing_failure_status_witness :
    ((fun (s : Nat) (_ : StripeEvent) => HandlerResult.failure ⟨none⟩ s) 0 ⟨"charge.failed"⟩
        = HandlerResult.failure ⟨none⟩ 0)
    ∧ (handleStripeWebhook (0 : Nat) true true true (Except.ok ⟨"charge.failed"⟩)
        (fun s _ => HandlerResult.failure ⟨none⟩ s)).status = jsOrStatus none
    ∧ ((HandlerError.mk none).statusCode = none →
        (handleStripeWebhook (0 : Nat) true true true (Except.ok ⟨"charge.failed"⟩)
          (fun s _ => HandlerResult.failure ⟨none⟩ s)).status = 500
        ∧ 500 ≤ (handleStripeWebhook (0 : Nat) true true true (Except.ok ⟨"charge.failed"⟩)
          (fun s _ => HandlerResult.failure ⟨none⟩ s)).status) :=
  ⟨rfl, handleStripeWebhook_processing_failure_status 0 0
    (fun s _ => HandlerResult.failure ⟨none⟩ s) ⟨"charge.failed"⟩ ⟨none⟩ rfl⟩

/-- A list on which find? fails has no element satisfying the predicate. -/
theorem any_eq_false_of_find?_eq_none {α : Type} (l : List α) (p : α → Bool)
    (h : l.find? p = none) : l.any p = false := by
  rw [List.any_eq_false]
  exact List.find?_eq_none.mp h

/-- find? over an append whose first part has no match is find? over the
second part. -/
theorem find?_append_of_none {α : Type} (l1 l2 : List α) (p : α → Bool)
    (h : l1.find? p = none) : (l1 ++ l2).find? p = l2.find? p := by
  rw [List.find?_append, h, Option.none_or]

/-- C6: for every redeemed token without oldEmail whose email matches no
existing member, getMemberDataFromMagicLinkToken creates exactly one member
from the token payload's name, email and labels (name defaulting to the
empty string and labels to the empty list) and appends exactly one login
event keyed to the new member's id; when a member is found, it appends
exactly one login event keyed to that member's id and creates nothing. -/
theorem getMemberDataFromMagicLinkToken_login_and_signup
    (st : MembersState) (p : TokenPayload) (e : String)
    (he : p.email = some e) (hne : e ≠ "")
    (hold : jsTruthyStr p.oldEmail = false) :
    (st.members.find? (fun x => x.email == e) = none →
      getMemberDataFromMagicLinkToken st p =
        (Except.ok (some ⟨st.nextId, e, p.name.getD "", p.labels.getD [], none⟩),
         ⟨st.members ++ [⟨st.nextId, e, p.name.getD "", p.labels.getD [], none⟩],
          st.loginEvents ++ [st.nextId],
          st.nextId + 1,
          st.reads ++ [e, e]⟩))
    ∧ (∀ m : Member, st.members.find? (fun x => x.email == e) = some m →
        getMemberDataFromMagicLinkToken st p =
          (Except.ok (some m),
           ⟨st.members, st.loginEvents ++ [m.id], st.nextId, st.reads ++ [e]⟩)) := by
  have hje : jsTruthyStr (some e) = true := by
    simp [jsTruthyStr, hne]
  constructor
  · intro hfind
    have hany : st.members.any (fun x => x.email == e) = false :=
      any_eq_false_of_find?_eq_none _ _ hfind
    simp only [getMemberDataFromMagicLinkToken, hje, Bool.not_true, Bool.false_eq_true,
      if_false, hold, he, Option.getD_some, getMemberIdentityData, hfind, usersCreate, hany]
    simp [find?_append_of_none _ _ _ hfind, List.append_assoc]
  · intro m hfind
    simp only [getMemberDataFromMagicLinkToken, hje, Bool.not_true, Bool.false_eq_true,
      if_false, hold, he, Option.getD_some, getMemberIdentityData, hfind]

/-- Witness for C6: redeeming a token for a fresh email on a concrete state
creates the member from the payload fields and logs one login event under
its id. -/
theorem getMemberDataFromMagicLinkToken_login_and_signup_witness :
    getMemberDataFromMagicLinkToken ⟨[], [], 5, []⟩
        ⟨some "x@y.z", some ["l1"], some "Nm", none⟩ =
      (Except.ok (some ⟨5, "x@y.z", "Nm", ["l1"], none⟩),
       ⟨[⟨5, "x@y.z", "Nm", ["l1"], none⟩], [5], 6, ["x@y.z", "x@y.z"]⟩) :=
  (getMemberDataFromMagicLinkToken_login_and_signup ⟨[], [], 5, []⟩
    ⟨some "x@y.z", some ["l1"], some "Nm", none⟩ "x@y.z" rfl (by decide) rfl).1 rfl

/-- After replacing the member found under email A by a record carrying
email B (same id), a lookup by B finds exactly that record, provided ids
are pairwise distinct and no other member holds B. -/
theorem find?_map_update_email (members : List Member) (m mB : Member) (A B : String)
    (hfind : members.find? (fun x => x.email == A) = some m)
    (hids : members.Pairwise (fun x y => x.id ≠ y.id))
    (hfree : ∀ x ∈ members, x.email = B → x.id = m.id)
    (hBe : mB.email = B) :
    (members.map (fun x => if x.id == m.id then mB else x)).find? (fun x => x.email == B)
      = some mB := by
  induction members with
  | nil => simp at hfind
  | cons x rest ih =>
    rcases List.pairwise_cons.mp hids with ⟨hx, hrest⟩
    cases hxA : (x.email == A) with
    | true =>
      have hxm : x = m := by
        simp only [List.find?_cons, hxA] at hfind
        exact Option.some.inj hfind
      have hmB : (mB.email == B) = true := by simp [hBe]
      simp only [List.map_cons]
      rw [show (if x.id == m.id then mB else x) = mB from by simp [hxm]]
      simp only [List.find?_cons, hmB]
    | false =>
      have hfind' : rest.find? (fun y => y.email == A) = some m := by
        simpa only [List.find?_cons, hxA] using hfind
      have hmem : m ∈ rest := List.mem_of_find?_eq_some hfind'
      have hxid : x.id ≠ m.id := hx m hmem
      have hxB : (x.email == B) = false := by
        rw [Bool.eq_false_iff]
        intro hcontra
        exact hxid (hfree x (List.mem_cons_self x rest) (by simpa using hcontra))
      simp only [List.map_cons]
      rw [show (if x.id == m.id then mB else x) = x from by simp [hxid]]
      simp only [List.find?_cons, hxB]
      exact ih hfind' hrest (fun y hy hB => hfree y (List.mem_cons_of_mem _ hy) hB)

/-- C2 counterexample: a token carrying oldEmail a and email b, redeemed
while a distinct member already holds email b.  The member resolved under a
exists, yet the call returns a Conflict error instead of an identity and
the member's email after the call is still a, not b — so the claim that
after the call the member's email equals the new email and the identity
looked up under the new email is returned is false at this input. -/
theorem getMemberDataFromMagicLinkToken_email_change_counterexample :
    ([⟨1, "a", "", [], none⟩, ⟨2, "b", "", [], none⟩] : List Member).find?
        (fun x => x.email == "a") = some ⟨1, "a", "", [], none⟩
    ∧ (getMemberDataFromMagicLinkToken
          ⟨[⟨1, "a", "", [], none⟩, ⟨2, "b", "", [], none⟩], [], 3, []⟩
          ⟨some "b", none, none, some "a"⟩).1 = Except.error ApiError.conflict
    ∧ ((getMemberDataFromMagicLinkToken
          ⟨[⟨1, "a", "", [], none⟩, ⟨2, "b", "", [], none⟩], [], 3, []⟩
          ⟨some "b", none, none, some "a"⟩).2.members.find?
            (fun x => x.id == 1)).map Member.email = some "a"
    ∧ (some "a" : Option String) ≠ some "b" := by
  refine ⟨rfl, rfl, ?_, ?_⟩
  · decide
  · decide

/-- C2 amended: for every redeemed token carrying oldEmail A and email B,
the existing member is resolved by A (the lookup trace is A first, then
B); if that member exists, member ids are distinct, and no distinct member
already holds B, then after the call the member's email equals B and the
returned identity is the one looked up under B. -/
theorem getMemberDataFromMagicLinkToken_email_change
    (st : MembersState) (p : TokenPayload) (A B : String) (m : Member)
    (hA : p.oldEmail = some A) (hAne : A ≠ "")
    (hB : p.email = some B) (hBne : B ≠ "")
    (hfind : st.members.find? (fun x => x.email == A) = some m)
    (hids : st.members.Pairwise (fun x y => x.id ≠ y.id))
    (hfree : ∀ x ∈ st.members, x.email = B → x.id = m.id) :
    getMemberDataFromMagicLinkToken st p =
      (Except.ok (some { m with email := B }),
       ⟨st.members.map (fun x => if x.id == m.id then { m with email := B } else x),
        st.loginEvents ++ [m.id],
        st.nextId,
        st.reads ++ [A, B]⟩) := by
  have hjB : jsTruthyStr (some B) = true := by simp [jsTruthyStr, hBne]
  have hjA : jsTruthyStr (some A) = true := by simp [jsTruthyStr, hAne]
  have hany : st.members.any (fun x => x.email == B && !(x.id == m.id)) = false := by
    rw [List.any_eq_false]
    intro x hx hcontra
    simp only [Bool.and_eq_true, beq_iff_eq, Bool.not_eq_true', beq_eq_false_iff_ne,
      ne_eq] at hcontra
    exact hcontra.2 (hfree x hx hcontra.1)
  simp only [getMemberDataFromMagicLinkToken, hB, hA, Option.getD_some, hjB, hjA,
    Bool.not_true, Bool.false_eq_true, if_false, if_true, getMemberIdentityData, hfind,
    usersUpdate, hany]
  rw [find?_map_update_email st.members m { m with email := B } A B hfind hids hfree rfl]
  simp [List.append_assoc]

/-- Witness for the amended C2 at a concrete single-member state. -/
theorem getMemberDataFromMagicLinkToken_email_change_witness :
    getMemberDataFromMagicLinkToken ⟨[⟨1, "a", "", [], none⟩], [], 2, []⟩
        ⟨some "b", none, none, some "a"⟩ =
      (Except.ok (some ⟨1, "b", "", [], none⟩),
       ⟨[⟨1, "b", "", [], none⟩], [1], 2, ["a", "b"]⟩) := by
  have h := getMemberDataFromMagicLinkToken_email_change
    ⟨[⟨1, "a", "", [], none⟩], [], 2, []⟩ ⟨some "b", none, none, some "a"⟩
    "a" "b" ⟨1, "a", "", [], none⟩ rfl (by decide) rfl (by decide) rfl
    (by simp) (by decide)
  simpa using h

end Members

namespace Offers

/-- C10: OfferDuration.create throws InvalidOfferDuration if and only if
the type is not one of the strings once, repeating or forever, or the type
is repeating and months is not an integer number; otherwise it returns an
OfferDuration carrying the given type, and carrying months exactly when the
type is repeating. -/
theorem offerDuration_create_correct (t m : JSValue) :
    (exceptIsError (OfferDuration.create t m) = true ↔
        (isDurationType t = false
          ∨ (t = JSValue.vStr "repeating" ∧ numberIsInteger m = false)))
    ∧ (∀ d : OfferDuration, OfferDuration.create t m = Except.ok d →
        d.type = t ∧ d.months = (if t = JSValue.vStr "repeating" then some m else none)) := by
  by_cases ht : isDurationType t = true
  · have ht3 : t = JSValue.vStr "once" ∨ t = JSValue.vStr "repeating"
        ∨ t = JSValue.vStr "forever" := by
      simp only [isDurationType, Bool.or_eq_true, beq_iff_eq] at ht
      tauto
    rcases ht3 with h | h | h
    · subst h
      have hcreate : OfferDuration.create (JSValue.vStr "once") m
          = Except.ok ⟨JSValue.vStr "once", none⟩ := rfl
      refine ⟨?_, ?_⟩
      · simp [hcreate, exceptIsError, isDurationType]
      · intro d hd
        rw [hcreate] at hd
        simp only [Except.ok.injEq] at hd
        subst hd
        exact ⟨rfl, by rw [if_neg (by decide)]⟩
    · subst h
      rcases hm : numberIsInteger m with hf | htr
      · have herr : exceptIsError (OfferDuration.create (JSValue.vStr "repeating") m)
            = true := by
          cases m <;>
            simp_all [OfferDuration.create, exceptIsError, jsTruthy, typeofString,
              numberIsInteger]
        refine ⟨?_, ?_⟩
        · simp [herr, hm]
        · intro d hd
          rw [hd] at herr
          simp [exceptIsError] at herr
      · have hmnum : typeofString m = "number" := by
          cases m <;> simp_all [numberIsInteger, typeofString]
        have hcreate : OfferDuration.create (JSValue.vStr "repeating") m
            = Except.ok ⟨JSValue.vStr "repeating", some m⟩ := by
          unfold OfferDuration.create
          simp only [hmnum, hm]
          rfl
        refine ⟨?_, ?_⟩
        · simp [hcreate, exceptIsError, isDurationType, hm]
        · intro d hd
          rw [hcreate] at hd
          simp only [Except.ok.injEq] at hd
          subst hd
          exact ⟨rfl, by rw [if_pos rfl]⟩
    · subst h
      have hcreate : OfferDuration.create (JSValue.vStr "forever") m
          = Except.ok ⟨JSValue.vStr "forever", none⟩ := rfl
      refine ⟨?_, ?_⟩
      · simp [hcreate, exceptIsError, isDurationType]
      · intro d hd
        rw [hcreate] at hd
        simp only [Except.ok.injEq] at hd
        subst hd
        exact ⟨rfl, by rw [if_neg (by decide)]⟩
  · have ht' : isDurationType t = false := by simpa using ht
    have herr : exceptIsError (OfferDuration.create t m) = true := by
      have h1 : t ≠ JSValue.vStr "once" := by
        intro h; subst h; simp [isDurationType] at ht'
      have h2 : t ≠ JSValue.vStr "repeating" := by
        intro h; subst h; simp [isDurationType] at ht'
      have h3 : t ≠ JSValue.vStr "forever" := by
        intro h; subst h; simp [isDurationType] at ht'
      rcases t with s | q | _ | _ | _ | b | _ | _
      · by_cases hs : s = ""
        · subst hs
          simp [OfferDuration.create, exceptIsError, jsTruthy]
        · have hs1 : s ≠ "once" := fun h => h1 (by rw [h])
          have hs2 : s ≠ "repeating" := fun h => h2 (by rw [h])
          have hs3 : s ≠ "forever" := fun h => h3 (by rw [h])
          simp [OfferDuration.create, exceptIsError, jsTruthy, typeofString, hs, hs1, hs2, hs3]
      · simp [OfferDuration.create, exceptIsError, jsTruthy, typeofString]
      · simp [OfferDuration.create, exceptIsError, typeofString]
      · simp [OfferDuration.create, exceptIsError, typeofString]
      · simp [OfferDuration.create, exceptIsError, typeofString]
      · cases b <;> simp [OfferDuration.create, exceptIsError, jsTruthy, typeofString]
      · simp [OfferDuration.create, exceptIsError, jsTruthy, typeofString]
      · simp [OfferDuration.create, exceptIsError, jsTruthy, typeofString]
    refine ⟨?_, ?_⟩
    · simp [herr, ht']
    · intro d hd
      rw [hd] at herr
      simp [exceptIsError] at herr

/-- Witness for C10 at the repeating duration with three months. -/
theorem offerDuration_create_correct_witness :
    OfferDuration.type ⟨JSValue.vStr "repeating", some (JSValue.vNum 3)⟩
        = JSValue.vStr "repeating"
    ∧ OfferDuration.months ⟨JSValue.vStr "repeating", some (JSValue.vNum 3)⟩
        = (if JSValue.vStr "repeating" = JSValue.vStr "repeating"
           then some (JSValue.vNum 3) else none) :=
  (offerDuration_create_correct (JSValue.vStr "repeating") (JSValue.vNum 3)).2
    ⟨JSValue.vStr "repeating", some (JSValue.vNum 3)⟩ rfl

end Offers
